import Mathlib

/-!
Shallow embedding of `src/dln2-adc.c` (Diolan DLN-2 USB-ADC driver).

The transport (`dln2_transfer` / `dln2_transfer_tx` from the DLN-2 MFD core)
is an external collaborator; it is modelled as an oracle `Transport` giving,
for each successive transfer issued by the driver, either a transport failure
(a negative errno, encoded as `err k` meaning return value `-(k+1)`) or a
successful response byte buffer.  Each driver function threads the list of
transfer calls issued so far (its trace), and the oracle is indexed by the
length of that trace, i.e. by the sequence number of the call.

Machine integers: byte fields are `Nat` reduced `% 256` exactly where the C
code stores into a `u8`; return values are `Int` with the kernel convention
that negative means error.
-/

/-- The DLN2 ADC command identifiers issued via `DLN2_CMD(_, DLN2_ADC_ID)`. -/
inductive DlnCmd where
  | getChannelCount
  | portEnable
  | portDisable
  | channelEnable
  | channelDisable
  | setResolution
  | channelGetVal
deriving DecidableEq

/-- One transfer issued to the transport: command id plus request payload bytes. -/
structure XferCall where
  cmd : DlnCmd
  ibuf : List Nat
deriving DecidableEq

/-- Outcome the transport gives a single transfer: `err k` is a transport
failure whose return value is `-(k+1) < 0`; `ok obuf` is success (return 0)
with response bytes `obuf`. -/
inductive XferResult where
  | err (k : Nat)
  | ok (obuf : List Nat)
deriving DecidableEq

/-- The transport oracle: the result of the `i`-th transfer issued. -/
def Transport : Type := Nat → XferResult

/-- `EPROTO` errno; the driver returns `-EPROTO` on short responses. -/
def EPROTO : Int := 71

/-- `EINVAL` errno. -/
def EINVAL : Int := 22

def DLN2_ADC_MAX_CHANNELS : Nat := 8

def DLN2_ADC_DATA_BITS : Nat := 10

/-- Driver per-port context (`struct dln2_adc`): the port number and the
`chans_enabled` byte ("Set once" the enable sequence has run). -/
structure dln2_adc where
  port : Nat
  chans_enabled : Nat
deriving DecidableEq

/-- Result of `dln2_transfer`: return value, `*olen` out value, the bytes
copied into the output buffer, and the trace extended by this call. -/
structure XferOut where
  ret : Int
  olen : Nat
  obuf : List Nat
  w : List XferCall
deriving DecidableEq

/-- Result of a driver operation that returns only a status: return value and
the extended trace. -/
structure RetW where
  ret : Int
  w : List XferCall
deriving DecidableEq

/-- Result of `dln2_adc_read`: return value, the (possibly updated) context,
and the extended trace. -/
structure ReadOut where
  ret : Int
  ctx : dln2_adc
  w : List XferCall
deriving DecidableEq

/-- Result of `dln2_adc_read_raw`: return value, context, the `*val` and
`*val2` out-parameters after the call, and the extended trace. -/
structure ReadRawOut where
  ret : Int
  ctx : dln2_adc
  val : Int
  val2 : Int
  w : List XferCall
deriving DecidableEq

/-- Model of `dln2_transfer(pdev, cmd, ibuf, ilen, obuf, &olen)`: issues one
transfer; on success the transport's response is truncated to the output
buffer capacity `ocap` and `*olen` is set to the number of bytes copied. -/
def dln2_transfer (tr : Transport) (cmd : DlnCmd) (ibuf : List Nat) (ocap : Nat)
    (w : List XferCall) : XferOut :=
  match tr w.length with
  | XferResult.err k => ⟨-((k : Int) + 1), 0, [], w ++ [⟨cmd, ibuf⟩]⟩
  | XferResult.ok obuf => ⟨0, min obuf.length ocap, obuf.take ocap, w ++ [⟨cmd, ibuf⟩]⟩

/-- Model of `dln2_transfer_tx(pdev, cmd, ibuf, ilen)`: issues one transfer
with no output buffer. -/
def dln2_transfer_tx (tr : Transport) (cmd : DlnCmd) (ibuf : List Nat)
    (w : List XferCall) : RetW :=
  match tr w.length with
  | XferResult.err k => ⟨-((k : Int) + 1), w ++ [⟨cmd, ibuf⟩]⟩
  | XferResult.ok _ => ⟨0, w ++ [⟨cmd, ibuf⟩]⟩

/-- `dln2_adc_get_chan_count` (source lines 47-63): one-byte request (port),
one-byte response (count); a short response is `-EPROTO`. -/
def dln2_adc_get_chan_count (tr : Transport) (dln2 : dln2_adc)
    (w : List XferCall) : RetW :=
  let r := dln2_transfer tr DlnCmd.getChannelCount [dln2.port % 256] 1 w
  if r.ret < 0 then ⟨r.ret, r.w⟩
  else if r.olen < 1 then ⟨-EPROTO, r.w⟩
  else ⟨((r.obuf.headD 0) % 256 : Nat), r.w⟩

/-- `dln2_adc_set_port_resolution` (source lines 65-79): two-byte request
(port, DLN2_ADC_DATA_BITS), tx only. -/
def dln2_adc_set_port_resolution (tr : Transport) (dln2 : dln2_adc)
    (w : List XferCall) : RetW :=
  let r := dln2_transfer_tx tr DlnCmd.setResolution
      [dln2.port % 256, DLN2_ADC_DATA_BITS % 256] w
  if r.ret < 0 then r else ⟨0, r.w⟩

/-- `dln2_adc_set_chan_enabled` (source lines 81-98): two-byte request
(port, channel), command chosen by the `enable` flag, tx only. -/
def dln2_adc_set_chan_enabled (tr : Transport) (dln2 : dln2_adc)
    (channel : Nat) (enable : Bool) (w : List XferCall) : RetW :=
  let r := dln2_transfer_tx tr
      (if enable then DlnCmd.channelEnable else DlnCmd.channelDisable)
      [dln2.port % 256, channel % 256] w
  if r.ret < 0 then r else ⟨0, r.w⟩

/-- The `for (i = 0; i < chan_count; ++i)` loop of `dln2_adc_set_port_enabled`
(source lines 112-117), over the list of channel indices still to enable:
stops at the first failing channel. -/
def dln2_adc_enable_chans (tr : Transport) (dln2 : dln2_adc) :
    List Nat → List XferCall → RetW
  | [], w => ⟨0, w⟩
  | i :: rest, w =>
    let r := dln2_adc_set_chan_enabled tr dln2 i true w
    if r.ret < 0 then r else dln2_adc_enable_chans tr dln2 rest r.w

/-- `dln2_adc_set_port_enabled` (source lines 100-132): query the channel
count, set the resolution, enable each channel in increasing order, then
issue port enable (or disable, by the flag) expecting a two-byte conflict
mask; a short conflict-mask response is `-EPROTO`. -/
def dln2_adc_set_port_enabled (tr : Transport) (dln2 : dln2_adc)
    (enable : Bool) (w : List XferCall) : RetW :=
  let r1 := dln2_adc_get_chan_count tr dln2 w
  if r1.ret < 0 then r1
  else
    let chan_count := r1.ret.toNat
    let r2 := dln2_adc_set_port_resolution tr dln2 r1.w
    if r2.ret < 0 then r2
    else
      let r3 := dln2_adc_enable_chans tr dln2 (List.range chan_count) r2.w
      if r3.ret < 0 then r3
      else
        let r4 := dln2_transfer tr
            (if enable then DlnCmd.portEnable else DlnCmd.portDisable)
            [dln2.port % 256] 2 r3.w
        if r4.ret < 0 then ⟨r4.ret, r4.w⟩
        else if r4.olen < 2 then ⟨-EPROTO, r4.w⟩
        else ⟨0, r4.w⟩

/-- Little-endian decode of the two-byte value field (`le16_to_cpu`). -/
def le16_to_cpu (b0 b1 : Nat) : Nat := b0 % 256 + 256 * (b1 % 256)

/-- The tail of `dln2_adc_read` after the enable check (source lines 145-160):
issue CHANNEL_GET_VAL with (port, channel) and decode the two-byte
little-endian value; a short response is `-EPROTO`. -/
def dln2_adc_read_val (tr : Transport) (dln2 : dln2_adc) (channel : Nat)
    (w : List XferCall) : ReadOut :=
  let r := dln2_transfer tr DlnCmd.channelGetVal
      [dln2.port % 256, channel % 256] 2 w
  if r.ret < 0 then ⟨r.ret, dln2, r.w⟩
  else if r.olen < 2 then ⟨-EPROTO, dln2, r.w⟩
  else ⟨(le16_to_cpu (r.obuf.getD 0 0) (r.obuf.getD 1 0) : Nat), dln2, r.w⟩

/-- `dln2_adc_read` (source lines 134-161): if `chans_enabled == 0`, run the
enable sequence first and set `chans_enabled = 1` on its success; then read
the channel value.  There is no range check on `channel`. -/
def dln2_adc_read (tr : Transport) (dln2 : dln2_adc) (channel : Nat)
    (w : List XferCall) : ReadOut :=
  if dln2.chans_enabled = 0 then
    let r := dln2_adc_set_port_enabled tr dln2 true w
    if r.ret < 0 then ⟨r.ret, dln2, r.w⟩
    else dln2_adc_read_val tr { dln2 with chans_enabled := 1 } channel r.w
  else dln2_adc_read_val tr dln2 channel w

def IIO_CHAN_INFO_RAW : Int := 0

def IIO_VAL_INT : Int := 1

/-- `dln2_adc_read_raw` (source lines 163-185): on `IIO_CHAN_INFO_RAW`, call
`dln2_adc_read`; a negative result breaks out of the switch and the function
returns `-EINVAL` (the out-parameters untouched); a non-negative result is
stored into `*val` and `IIO_VAL_INT` is returned.  Any other mask returns
`-EINVAL` directly. -/
def dln2_adc_read_raw (tr : Transport) (dln2 : dln2_adc) (channel : Nat)
    (val val2 : Int) (mask : Int) (w : List XferCall) : ReadRawOut :=
  if mask = IIO_CHAN_INFO_RAW then
    let r := dln2_adc_read tr dln2 channel w
    if r.ret < 0 then ⟨-EINVAL, r.ctx, val, val2, r.w⟩
    else ⟨IIO_VAL_INT, r.ctx, r.ret, val2, r.w⟩
  else ⟨-EINVAL, dln2, val, val2, w⟩

/-- `dln2_adc_remove` (source lines 246-252): only unregisters the IIO device
with the host framework; it issues no transfer and does not touch the
context, so the trace is unchanged. -/
def dln2_adc_remove (dln2 : dln2_adc) (w : List XferCall) : RetW :=
  ⟨0, w⟩

/-- The request payload a ChannelEnable for channel `i` carries. -/
def ceCall (d : dln2_adc) (i : Nat) : XferCall :=
  ⟨DlnCmd.channelEnable, [d.port % 256, i % 256]⟩

/-- The GetChannelCount request for the context's port. -/
def gccCall (d : dln2_adc) : XferCall :=
  ⟨DlnCmd.getChannelCount, [d.port % 256]⟩

/-- The SetResolution request: port and the 10-bit resolution. -/
def resCall (d : dln2_adc) : XferCall :=
  ⟨DlnCmd.setResolution, [d.port % 256, 10]⟩

/-- The PortEnable request for the context's port. -/
def peCall (d : dln2_adc) : XferCall :=
  ⟨DlnCmd.portEnable, [d.port % 256]⟩

/-- The ChannelGetValue request: port and channel, each truncated to a byte. -/
def gvCall (d : dln2_adc) (ch : Nat) : XferCall :=
  ⟨DlnCmd.channelGetVal, [d.port % 256, ch % 256]⟩

/-- The full trace the enable sequence emits when every step runs: count
query, resolution, one ChannelEnable per channel in increasing order, and
PortEnable. -/
def enableTrace (d : dln2_adc) (n : Nat) : List XferCall :=
  gccCall d :: resCall d :: (List.range n).map (ceCall d) ++ [peCall d]

/-- A transport that answers every transfer with the same failure `err 4`
(return value `-5`). -/
def trErr5 : Transport := fun _ => XferResult.err 4

/-- A transport that answers every transfer with the same byte buffer. -/
def trOk (l : List Nat) : Transport := fun _ => XferResult.ok l

/-- A transport under which the whole first read of a two-channel port
succeeds: channel count 2, then successes, with `[0xFF, 0x03]` as the
CHANNEL_GET_VAL response (call number 5). -/
def trGood : Transport := fun i =>
  if i = 0 then XferResult.ok [2]
  else if i = 5 then XferResult.ok [255, 3]
  else XferResult.ok [0, 0]

/-- A transport under which the enable sequence of a two-channel port fails
at the second ChannelEnable (call number 3) with `err 7` (return `-8`). -/
def trCeFail : Transport := fun i =>
  if i = 0 then XferResult.ok [2]
  else if i = 3 then XferResult.err 7
  else XferResult.ok [0, 0]

/-- A transport under which the enable sequence fails at the SetResolution
step (call number 1) with `err 9` (return value -10). -/
def trResFail : Transport := fun i =>
  if i = 0 then XferResult.ok [2]
  else if i = 1 then XferResult.err 9
  else XferResult.ok [0, 0]

/-- A transport under which the enable sequence of a two-channel port fails
at the PortEnable step (call number 4) with `err 3` (return value -4). -/
def trPeFail : Transport := fun i =>
  if i = 0 then XferResult.ok [2]
  else if i = 4 then XferResult.err 3
  else XferResult.ok [0, 0]

/-- A transport under which the enable sequence of a two-channel port runs to
the PortEnable step (call number 4) but gets a one-byte (short) conflict-mask
response there. -/
def trPeShort : Transport := fun i =>
  if i = 0 then XferResult.ok [2]
  else if i = 4 then XferResult.ok [0]
  else XferResult.ok [0, 0]

/-- An enabled context on port 2. -/
def dEn : dln2_adc := ⟨2, 1⟩

/-- A not-yet-enabled context on port 2. -/
def dUn : dln2_adc := ⟨2, 0⟩

/-! ### Characterization lemmas for the basic operations -/

theorem get_chan_count_err (tr : Transport) (d : dln2_adc) (w : List XferCall)
    (k : Nat) (h : tr w.length = XferResult.err k) :
    dln2_adc_get_chan_count tr d w =
      ⟨-((k : Int) + 1), w ++ [⟨DlnCmd.getChannelCount, [d.port % 256]⟩]⟩ := by
  have hk : -((k : Int) + 1) < 0 := by omega
  simp only [dln2_adc_get_chan_count, dln2_transfer, h]
  split
  next => rfl
  next hc => exact absurd hk hc

theorem get_chan_count_short (tr : Transport) (d : dln2_adc) (w : List XferCall)
    (h : tr w.length = XferResult.ok []) :
    dln2_adc_get_chan_count tr d w =
      ⟨-EPROTO, w ++ [⟨DlnCmd.getChannelCount, [d.port % 256]⟩]⟩ := by
  simp [dln2_adc_get_chan_count, dln2_transfer, h]

theorem get_chan_count_ok (tr : Transport) (d : dln2_adc) (w : List XferCall)
    (l : List Nat) (h : tr w.length = XferResult.ok l) (h1 : 1 ≤ l.length) :
    dln2_adc_get_chan_count tr d w =
      ⟨((l.headD 0) % 256 : Nat), w ++ [⟨DlnCmd.getChannelCount, [d.port % 256]⟩]⟩ := by
  cases l with
  | nil => simp at h1
  | cons a t => simp [dln2_adc_get_chan_count, dln2_transfer, h]

theorem set_port_resolution_err (tr : Transport) (d : dln2_adc)
    (w : List XferCall) (k : Nat) (h : tr w.length = XferResult.err k) :
    dln2_adc_set_port_resolution tr d w =
      ⟨-((k : Int) + 1), w ++ [⟨DlnCmd.setResolution, [d.port % 256, 10]⟩]⟩ := by
  have hk : -((k : Int) + 1) < 0 := by omega
  simp only [dln2_adc_set_port_resolution, dln2_transfer_tx, h]
  split
  next => rfl
  next hc => exact absurd hk hc

theorem set_port_resolution_ok (tr : Transport) (d : dln2_adc)
    (w : List XferCall) (l : List Nat) (h : tr w.length = XferResult.ok l) :
    dln2_adc_set_port_resolution tr d w =
      ⟨0, w ++ [⟨DlnCmd.setResolution, [d.port % 256, 10]⟩]⟩ := by
  simp [dln2_adc_set_port_resolution, dln2_transfer_tx, h]
  rfl

theorem set_chan_enabled_err (tr : Transport) (d : dln2_adc) (i : Nat)
    (w : List XferCall) (k : Nat) (h : tr w.length = XferResult.err k) :
    dln2_adc_set_chan_enabled tr d i true w =
      ⟨-((k : Int) + 1), w ++ [ceCall d i]⟩ := by
  have hk : -((k : Int) + 1) < 0 := by omega
  simp only [dln2_adc_set_chan_enabled, dln2_transfer_tx, h]
  split
  next => rfl
  next hc => exact absurd hk hc

theorem set_chan_enabled_ok (tr : Transport) (d : dln2_adc) (i : Nat)
    (w : List XferCall) (l : List Nat) (h : tr w.length = XferResult.ok l) :
    dln2_adc_set_chan_enabled tr d i true w = ⟨0, w ++ [ceCall d i]⟩ := by
  simp [dln2_adc_set_chan_enabled, dln2_transfer_tx, h]
  rfl

theorem read_val_err (tr : Transport) (d : dln2_adc) (ch : Nat)
    (w : List XferCall) (k : Nat) (h : tr w.length = XferResult.err k) :
    dln2_adc_read_val tr d ch w =
      ⟨-((k : Int) + 1), d, w ++ [⟨DlnCmd.channelGetVal, [d.port % 256, ch % 256]⟩]⟩ := by
  have hk : -((k : Int) + 1) < 0 := by omega
  simp only [dln2_adc_read_val, dln2_transfer, h]
  split
  next => rfl
  next hc => exact absurd hk hc

theorem read_val_short (tr : Transport) (d : dln2_adc) (ch : Nat)
    (w : List XferCall) (l : List Nat) (h : tr w.length = XferResult.ok l)
    (h1 : l.length < 2) :
    dln2_adc_read_val tr d ch w =
      ⟨-EPROTO, d, w ++ [⟨DlnCmd.channelGetVal, [d.port % 256, ch % 256]⟩]⟩ := by
  have hm : min l.length 2 = l.length := by omega
  simp [dln2_adc_read_val, dln2_transfer, h, hm, h1]

theorem read_val_ok (tr : Transport) (d : dln2_adc) (ch : Nat)
    (w : List XferCall) (l : List Nat) (h : tr w.length = XferResult.ok l)
    (h1 : 2 ≤ l.length) :
    dln2_adc_read_val tr d ch w =
      ⟨(le16_to_cpu (l.getD 0 0) (l.getD 1 0) : Nat), d,
        w ++ [⟨DlnCmd.channelGetVal, [d.port % 256, ch % 256]⟩]⟩ := by
  match l, h1 with
  | a :: b :: t, _ => simp [dln2_adc_read_val, dln2_transfer, h]

theorem dln2_transfer_err (tr : Transport) (cmd : DlnCmd) (ibuf : List Nat)
    (ocap : Nat) (w : List XferCall) (k : Nat)
    (h : tr w.length = XferResult.err k) :
    dln2_transfer tr cmd ibuf ocap w =
      ⟨-((k : Int) + 1), 0, [], w ++ [⟨cmd, ibuf⟩]⟩ := by
  simp [dln2_transfer, h]

theorem dln2_transfer_ok (tr : Transport) (cmd : DlnCmd) (ibuf : List Nat)
    (ocap : Nat) (w : List XferCall) (l : List Nat)
    (h : tr w.length = XferResult.ok l) :
    dln2_transfer tr cmd ibuf ocap w =
      ⟨0, min l.length ocap, l.take ocap, w ++ [⟨cmd, ibuf⟩]⟩ := by
  simp [dln2_transfer, h]

theorem enable_chans_all_ok (tr : Transport) (d : dln2_adc) (l : List Nat) :
    ∀ (lce : Nat → List Nat) (w : List XferCall),
    (∀ j, j < l.length → tr (w.length + j) = XferResult.ok (lce j)) →
    dln2_adc_enable_chans tr d l w = ⟨0, w ++ l.map (ceCall d)⟩ := by
  induction l with
  | nil =>
    intro lce w _
    simp [dln2_adc_enable_chans]
  | cons i rest ih =>
    intro lce w h
    have h0 : tr w.length = XferResult.ok (lce 0) := by
      simpa using h 0 (by simp)
    have hrest : ∀ j, j < rest.length →
        tr ((w ++ [ceCall d i]).length + j) = XferResult.ok (lce (j + 1)) := by
      intro j hj
      have e : (w ++ [ceCall d i]).length + j = w.length + (j + 1) := by
        simp
        omega
      rw [e]
      exact h (j + 1) (by simpa using Nat.succ_lt_succ hj)
    simp only [dln2_adc_enable_chans, set_chan_enabled_ok tr d i w (lce 0) h0]
    simp [ih (fun j => lce (j + 1)) (w ++ [ceCall d i]) hrest]

theorem enable_chans_fail (tr : Transport) (d : dln2_adc) (l : List Nat) :
    ∀ (j k : Nat) (lce : Nat → List Nat) (w : List XferCall),
    j < l.length →
    (∀ i, i < j → tr (w.length + i) = XferResult.ok (lce i)) →
    tr (w.length + j) = XferResult.err k →
    dln2_adc_enable_chans tr d l w =
      ⟨-((k : Int) + 1), w ++ (l.take (j + 1)).map (ceCall d)⟩ := by
  induction l with
  | nil =>
    intro j k lce w hj _ _
    simp at hj
  | cons i rest ih =>
    intro j k lce w hj hok herr
    cases j with
    | zero =>
      have h0 : tr w.length = XferResult.err k := by simpa using herr
      have hk : -((k : Int) + 1) < 0 := by omega
      simp only [dln2_adc_enable_chans, set_chan_enabled_err tr d i w k h0]
      split
      next => simp
      next hc => exact absurd hk hc
    | succ j =>
      have h0 : tr w.length = XferResult.ok (lce 0) := by
        simpa using hok 0 (Nat.succ_pos j)
      have hok' : ∀ m, m < j →
          tr ((w ++ [ceCall d i]).length + m) = XferResult.ok (lce (m + 1)) := by
        intro m hm
        have e : (w ++ [ceCall d i]).length + m = w.length + (m + 1) := by
          simp
          omega
        rw [e]
        exact hok (m + 1) (by omega)
      have herr' : tr ((w ++ [ceCall d i]).length + j) = XferResult.err k := by
        have e : (w ++ [ceCall d i]).length + j = w.length + (j + 1) := by
          simp
          omega
        rw [e]
        exact herr
      simp only [dln2_adc_enable_chans, set_chan_enabled_ok tr d i w (lce 0) h0]
      have hj' : j < rest.length := by simpa using hj
      simp [ih j k (fun m => lce (m + 1)) (w ++ [ceCall d i]) hj' hok' herr']

theorem set_port_enabled_gcc_err (tr : Transport) (d : dln2_adc)
    (w : List XferCall) (k : Nat) (h : tr w.length = XferResult.err k) :
    dln2_adc_set_port_enabled tr d true w =
      ⟨-((k : Int) + 1), w ++ [gccCall d]⟩ := by
  have hk : -((k : Int) + 1) < 0 := by omega
  simp only [dln2_adc_set_port_enabled, get_chan_count_err tr d w k h]
  split
  next => rfl
  next hc => exact absurd hk hc

theorem set_port_enabled_ret_nonpos (tr : Transport) (d : dln2_adc)
    (e : Bool) (w : List XferCall) :
    (dln2_adc_set_port_enabled tr d e w).ret ≤ 0 := by
  simp only [dln2_adc_set_port_enabled]
  repeat' split
  all_goals try exact le_of_lt (by assumption)
  all_goals norm_num [EPROTO]

theorem set_port_enabled_ok (tr : Transport) (d : dln2_adc) (w : List XferCall)
    (n : Nat) (t lres lpe : List Nat) (lce : Nat → List Nat)
    (hn : n < 256)
    (hgcc : tr w.length = XferResult.ok (n :: t))
    (hres : tr (w.length + 1) = XferResult.ok lres)
    (hce : ∀ i, i < n → tr (w.length + 2 + i) = XferResult.ok (lce i))
    (hpe : tr (w.length + 2 + n) = XferResult.ok lpe)
    (hlpe : 2 ≤ lpe.length) :
    dln2_adc_set_port_enabled tr d true w = ⟨0, w ++ enableTrace d n⟩ := by
  have hgc : dln2_adc_get_chan_count tr d w = ⟨(n : Int), w ++ [gccCall d]⟩ := by
    rw [get_chan_count_ok tr d w (n :: t) hgcc (by simp)]
    simp [Nat.mod_eq_of_lt hn, gccCall]
  have hr2 : dln2_adc_set_port_resolution tr d (w ++ [gccCall d]) =
      ⟨0, w ++ [gccCall d, resCall d]⟩ := by
    have h2 : tr ((w ++ [gccCall d]).length) = XferResult.ok lres := by
      have e : (w ++ [gccCall d]).length = w.length + 1 := by simp
      rw [e]
      exact hres
    rw [set_port_resolution_ok tr d _ lres h2]
    simp [resCall]
  have hr3 : dln2_adc_enable_chans tr d (List.range n)
      (w ++ [gccCall d, resCall d]) =
      ⟨0, (w ++ [gccCall d, resCall d]) ++ (List.range n).map (ceCall d)⟩ := by
    apply enable_chans_all_ok tr d (List.range n) lce
    intro j hj
    have e : (w ++ [gccCall d, resCall d]).length + j = w.length + 2 + j := by
      simp only [List.length_append, List.length_cons, List.length_nil]
    rw [e]
    exact hce j (by simpa using hj)
  have hr4 : dln2_transfer tr DlnCmd.portEnable [d.port % 256] 2
      ((w ++ [gccCall d, resCall d]) ++ (List.range n).map (ceCall d)) =
      ⟨0, 2, lpe.take 2,
        ((w ++ [gccCall d, resCall d]) ++ (List.range n).map (ceCall d)) ++ [peCall d]⟩ := by
    have h4 : tr (((w ++ [gccCall d, resCall d]) ++ (List.range n).map (ceCall d)).length) =
        XferResult.ok lpe := by
      have e : ((w ++ [gccCall d, resCall d]) ++ (List.range n).map (ceCall d)).length =
          w.length + 2 + n := by
        simp only [List.length_append, List.length_cons, List.length_nil, List.length_map,
          List.length_range]
      rw [e]
      exact hpe
    rw [dln2_transfer_ok tr _ _ 2 _ lpe h4]
    have hm : min lpe.length 2 = 2 := by omega
    simp [hm, peCall]
  simp only [dln2_adc_set_port_enabled, hgc]
  split
  next hc => omega
  next =>
    simp only [Int.toNat_natCast, hr2]
    split
    next hc => omega
    next =>
      simp only [if_true, hr3]
      split
      next hc => omega
      next =>
        simp only [hr4]
        split
        next hc => omega
        next =>
          simp [enableTrace]

theorem range_take (j n : Nat) (h : j ≤ n) :
    (List.range n).take j = List.range j := by
  rw [List.take_range]
  simp [Nat.min_eq_left h]

theorem set_port_enabled_ce_fail (tr : Transport) (d : dln2_adc)
    (w : List XferCall) (n : Nat) (t lres : List Nat) (lce : Nat → List Nat)
    (j k : Nat)
    (hn : n < 256)
    (hgcc : tr w.length = XferResult.ok (n :: t))
    (hres : tr (w.length + 1) = XferResult.ok lres)
    (hj : j < n)
    (hok : ∀ i, i < j → tr (w.length + 2 + i) = XferResult.ok (lce i))
    (herr : tr (w.length + 2 + j) = XferResult.err k) :
    dln2_adc_set_port_enabled tr d true w =
      ⟨-((k : Int) + 1),
        w ++ gccCall d :: resCall d :: (List.range (j + 1)).map (ceCall d)⟩ := by
  have hgc : dln2_adc_get_chan_count tr d w = ⟨(n : Int), w ++ [gccCall d]⟩ := by
    rw [get_chan_count_ok tr d w (n :: t) hgcc (by simp)]
    simp [Nat.mod_eq_of_lt hn, gccCall]
  have hr2 : dln2_adc_set_port_resolution tr d (w ++ [gccCall d]) =
      ⟨0, w ++ [gccCall d, resCall d]⟩ := by
    have h2 : tr ((w ++ [gccCall d]).length) = XferResult.ok lres := by
      have e : (w ++ [gccCall d]).length = w.length + 1 := by simp
      rw [e]
      exact hres
    rw [set_port_resolution_ok tr d _ lres h2]
    simp [resCall]
  have hr3 : dln2_adc_enable_chans tr d (List.range n)
      (w ++ [gccCall d, resCall d]) =
      ⟨-((k : Int) + 1),
        (w ++ [gccCall d, resCall d]) ++ ((List.range n).take (j + 1)).map (ceCall d)⟩ := by
    apply enable_chans_fail tr d (List.range n) j k lce
    · simpa using hj
    · intro i hi
      have e : (w ++ [gccCall d, resCall d]).length + i = w.length + 2 + i := by
        simp only [List.length_append, List.length_cons, List.length_nil]
      rw [e]
      exact hok i hi
    · have e : (w ++ [gccCall d, resCall d]).length + j = w.length + 2 + j := by
        simp only [List.length_append, List.length_cons, List.length_nil]
      rw [e]
      exact herr
  have hk : -((k : Int) + 1) < 0 := by omega
  simp only [dln2_adc_set_port_enabled, hgc]
  split
  next hc => omega
  next =>
    simp only [Int.toNat_natCast, hr2]
    split
    next hc => omega
    next =>
      simp only [hr3]
      split
      next =>
        simp [range_take (j + 1) n (by omega)]
      next hc => exact absurd hk hc

theorem set_port_enabled_pe_short (tr : Transport) (d : dln2_adc)
    (w : List XferCall) (n : Nat) (t lres lpe : List Nat) (lce : Nat → List Nat)
    (hn : n < 256)
    (hgcc : tr w.length = XferResult.ok (n :: t))
    (hres : tr (w.length + 1) = XferResult.ok lres)
    (hce : ∀ i, i < n → tr (w.length + 2 + i) = XferResult.ok (lce i))
    (hpe : tr (w.length + 2 + n) = XferResult.ok lpe)
    (hlpe : lpe.length < 2) :
    dln2_adc_set_port_enabled tr d true w = ⟨-EPROTO, w ++ enableTrace d n⟩ := by
  have hgc : dln2_adc_get_chan_count tr d w = ⟨(n : Int), w ++ [gccCall d]⟩ := by
    rw [get_chan_count_ok tr d w (n :: t) hgcc (by simp)]
    simp [Nat.mod_eq_of_lt hn, gccCall]
  have hr2 : dln2_adc_set_port_resolution tr d (w ++ [gccCall d]) =
      ⟨0, w ++ [gccCall d, resCall d]⟩ := by
    have h2 : tr ((w ++ [gccCall d]).length) = XferResult.ok lres := by
      have e : (w ++ [gccCall d]).length = w.length + 1 := by simp
      rw [e]
      exact hres
    rw [set_port_resolution_ok tr d _ lres h2]
    simp [resCall]
  have hr3 : dln2_adc_enable_chans tr d (List.range n)
      (w ++ [gccCall d, resCall d]) =
      ⟨0, (w ++ [gccCall d, resCall d]) ++ (List.range n).map (ceCall d)⟩ := by
    apply enable_chans_all_ok tr d (List.range n) lce
    intro i hi
    have e : (w ++ [gccCall d, resCall d]).length + i = w.length + 2 + i := by
      simp only [List.length_append, List.length_cons, List.length_nil]
    rw [e]
    exact hce i (by simpa using hi)
  have hr4 : dln2_transfer tr DlnCmd.portEnable [d.port % 256] 2
      ((w ++ [gccCall d, resCall d]) ++ (List.range n).map (ceCall d)) =
      ⟨0, lpe.length, lpe.take 2,
        ((w ++ [gccCall d, resCall d]) ++ (List.range n).map (ceCall d)) ++ [peCall d]⟩ := by
    have h4 : tr (((w ++ [gccCall d, resCall d]) ++ (List.range n).map (ceCall d)).length) =
        XferResult.ok lpe := by
      have e : ((w ++ [gccCall d, resCall d]) ++ (List.range n).map (ceCall d)).length =
          w.length + 2 + n := by
        simp only [List.length_append, List.length_cons, List.length_nil, List.length_map,
          List.length_range]
      rw [e]
      exact hpe
    rw [dln2_transfer_ok tr _ _ 2 _ lpe h4]
    have hm : min lpe.length 2 = lpe.length := by omega
    simp [hm, peCall]
  simp only [dln2_adc_set_port_enabled, hgc, Int.toNat_natCast, hr2, hr3, if_true, hr4]
  rw [if_neg (show ¬((n : Int) < 0) by omega)]
  rw [if_neg (show ¬((0 : Int) < 0) by omega)]
  rw [if_neg (show ¬((0 : Int) < 0) by omega)]
  rw [if_neg (show ¬((0 : Int) < 0) by omega)]
  rw [if_pos hlpe]
  simp [enableTrace]

theorem read_enabled (tr : Transport) (d : dln2_adc) (ch : Nat)
    (w : List XferCall) (h : d.chans_enabled ≠ 0) :
    dln2_adc_read tr d ch w = dln2_adc_read_val tr d ch w := by
  simp [dln2_adc_read, h]

theorem read_uninit_err (tr : Transport) (d : dln2_adc) (ch : Nat)
    (w : List XferCall) (h0 : d.chans_enabled = 0)
    (hfail : (dln2_adc_set_port_enabled tr d true w).ret < 0) :
    dln2_adc_read tr d ch w =
      ⟨(dln2_adc_set_port_enabled tr d true w).ret, d,
        (dln2_adc_set_port_enabled tr d true w).w⟩ := by
  simp [dln2_adc_read, h0, hfail]

theorem read_uninit_ok (tr : Transport) (d : dln2_adc) (ch : Nat)
    (w : List XferCall) (h0 : d.chans_enabled = 0)
    (hok : ¬(dln2_adc_set_port_enabled tr d true w).ret < 0) :
    dln2_adc_read tr d ch w =
      dln2_adc_read_val tr { d with chans_enabled := 1 } ch
        (dln2_adc_set_port_enabled tr d true w).w := by
  simp [dln2_adc_read, h0, hok]

theorem read_val_ret_le (tr : Transport) (d : dln2_adc) (ch : Nat)
    (w : List XferCall) : (dln2_adc_read_val tr d ch w).ret ≤ 65535 := by
  cases h : tr w.length with
  | err k =>
    rw [read_val_err tr d ch w k h]
    simp
    omega
  | ok l =>
    by_cases h2 : 2 ≤ l.length
    · rw [read_val_ok tr d ch w l h h2]
      simp [le16_to_cpu]
      omega
    · rw [read_val_short tr d ch w l h (by omega)]
      norm_num [EPROTO]

theorem read_ret_le (tr : Transport) (d : dln2_adc) (ch : Nat)
    (w : List XferCall) : (dln2_adc_read tr d ch w).ret ≤ 65535 := by
  by_cases h0 : d.chans_enabled = 0
  · by_cases hf : (dln2_adc_set_port_enabled tr d true w).ret < 0
    · rw [read_uninit_err tr d ch w h0 hf]
      simp
      omega
    · rw [read_uninit_ok tr d ch w h0 hf]
      exact read_val_ret_le tr _ ch _
  · rw [read_enabled tr d ch w h0]
    exact read_val_ret_le tr d ch w

theorem dln2_transfer_w (tr : Transport) (cmd : DlnCmd) (ibuf : List Nat)
    (ocap : Nat) (w : List XferCall) :
    (dln2_transfer tr cmd ibuf ocap w).w = w ++ [⟨cmd, ibuf⟩] := by
  cases h : tr w.length <;> simp [dln2_transfer, h]

theorem dln2_transfer_tx_w (tr : Transport) (cmd : DlnCmd) (ibuf : List Nat)
    (w : List XferCall) :
    (dln2_transfer_tx tr cmd ibuf w).w = w ++ [⟨cmd, ibuf⟩] := by
  cases h : tr w.length <;> simp [dln2_transfer_tx, h]

theorem get_chan_count_w (tr : Transport) (d : dln2_adc) (w : List XferCall) :
    (dln2_adc_get_chan_count tr d w).w = w ++ [gccCall d] := by
  simp only [dln2_adc_get_chan_count]
  split
  next => simp [dln2_transfer_w, gccCall]
  next => split <;> simp [dln2_transfer_w, gccCall]

theorem set_port_resolution_w (tr : Transport) (d : dln2_adc)
    (w : List XferCall) :
    (dln2_adc_set_port_resolution tr d w).w = w ++ [resCall d] := by
  simp only [dln2_adc_set_port_resolution]
  split <;> simp [dln2_transfer_tx_w, resCall, DLN2_ADC_DATA_BITS]

theorem set_chan_enabled_w_true (tr : Transport) (d : dln2_adc) (i : Nat)
    (w : List XferCall) :
    (dln2_adc_set_chan_enabled tr d i true w).w = w ++ [ceCall d i] := by
  simp only [dln2_adc_set_chan_enabled, if_true]
  split <;> simp [dln2_transfer_tx_w, ceCall]

theorem read_val_w (tr : Transport) (d : dln2_adc) (ch : Nat)
    (w : List XferCall) :
    (dln2_adc_read_val tr d ch w).w = w ++ [gvCall d ch] := by
  simp only [dln2_adc_read_val]
  split
  next => simp [dln2_transfer_w, gvCall]
  next => split <;> simp [dln2_transfer_w, gvCall]

theorem enable_chans_w_mem (tr : Transport) (d : dln2_adc) (l : List Nat) :
    ∀ (w : List XferCall) (c : XferCall),
    c ∈ (dln2_adc_enable_chans tr d l w).w →
    c ∈ w ∨ c.cmd = DlnCmd.channelEnable := by
  induction l with
  | nil =>
    intro w c hc
    simp [dln2_adc_enable_chans] at hc
    exact Or.inl hc
  | cons i rest ih =>
    intro w c hc
    simp only [dln2_adc_enable_chans] at hc
    by_cases hr : (dln2_adc_set_chan_enabled tr d i true w).ret < 0
    · rw [if_pos hr, set_chan_enabled_w_true] at hc
      rcases List.mem_append.mp hc with h1 | h2
      · exact Or.inl h1
      · right
        simp at h2
        simp [h2, ceCall]
    · rw [if_neg hr] at hc
      rcases ih _ c hc with h1 | h2
      · rw [set_chan_enabled_w_true] at h1
        rcases List.mem_append.mp h1 with h3 | h4
        · exact Or.inl h3
        · right
          simp at h4
          simp [h4, ceCall]
      · exact Or.inr h2

theorem set_port_enabled_w_mem (tr : Transport) (d : dln2_adc)
    (w : List XferCall) (c : XferCall)
    (hc : c ∈ (dln2_adc_set_port_enabled tr d true w).w) :
    c ∈ w ∨ c.cmd ≠ DlnCmd.portDisable ∧ c.cmd ≠ DlnCmd.channelDisable := by
  simp only [dln2_adc_set_port_enabled, if_true] at hc
  by_cases h1 : (dln2_adc_get_chan_count tr d w).ret < 0
  · rw [if_pos h1, get_chan_count_w] at hc
    rcases List.mem_append.mp hc with ha | hb
    · exact Or.inl ha
    · right
      simp at hb
      simp [hb, gccCall]
  · rw [if_neg h1] at hc
    by_cases h2 : (dln2_adc_set_port_resolution tr d
        (dln2_adc_get_chan_count tr d w).w).ret < 0
    · rw [if_pos h2, set_port_resolution_w, get_chan_count_w] at hc
      rcases List.mem_append.mp hc with ha | hb
      · rcases List.mem_append.mp ha with ha1 | ha2
        · exact Or.inl ha1
        · right
          simp at ha2
          simp [ha2, gccCall]
      · right
        simp at hb
        simp [hb, resCall]
    · rw [if_neg h2] at hc
      by_cases h3 : (dln2_adc_enable_chans tr d
          (List.range (dln2_adc_get_chan_count tr d w).ret.toNat)
          (dln2_adc_set_port_resolution tr d (dln2_adc_get_chan_count tr d w).w).w).ret < 0
      · rw [if_pos h3] at hc
        rcases enable_chans_w_mem tr d _ _ c hc with ha | hb
        · rw [set_port_resolution_w, get_chan_count_w] at ha
          rcases List.mem_append.mp ha with ha1 | ha2
          · rcases List.mem_append.mp ha1 with ha3 | ha4
            · exact Or.inl ha3
            · right
              simp at ha4
              simp [ha4, gccCall]
          · right
            simp at ha2
            simp [ha2, resCall]
        · right
          simp [hb]
      · rw [if_neg h3] at hc
        have hw : ∀ x, x ∈ (dln2_transfer tr DlnCmd.portEnable [d.port % 256] 2
            (dln2_adc_enable_chans tr d
              (List.range (dln2_adc_get_chan_count tr d w).ret.toNat)
              (dln2_adc_set_port_resolution tr d (dln2_adc_get_chan_count tr d w).w).w).w).w →
            x ∈ w ∨ x.cmd ≠ DlnCmd.portDisable ∧ x.cmd ≠ DlnCmd.channelDisable := by
          intro x hx
          rw [dln2_transfer_w] at hx
          rcases List.mem_append.mp hx with hx1 | hx2
          · rcases enable_chans_w_mem tr d _ _ x hx1 with hy | hz
            · rw [set_port_resolution_w, get_chan_count_w] at hy
              rcases List.mem_append.mp hy with hy1 | hy2
              · rcases List.mem_append.mp hy1 with hy3 | hy4
                · exact Or.inl hy3
                · right
                  simp at hy4
                  simp [hy4, gccCall]
              · right
                simp at hy2
                simp [hy2, resCall]
            · right
              simp [hz]
          · right
            simp at hx2
            simp [hx2]
        split at hc
        next => exact hw c hc
        next =>
          split at hc
          next => exact hw c hc
          next => exact hw c hc

theorem read_w_mem (tr : Transport) (d : dln2_adc) (ch : Nat)
    (w : List XferCall) (c : XferCall)
    (hc : c ∈ (dln2_adc_read tr d ch w).w) :
    c ∈ w ∨ c.cmd ≠ DlnCmd.portDisable ∧ c.cmd ≠ DlnCmd.channelDisable := by
  have hval : ∀ (d2 : dln2_adc) (w2 : List XferCall),
      c ∈ (dln2_adc_read_val tr d2 ch w2).w →
      c ∈ w2 ∨ c.cmd ≠ DlnCmd.portDisable ∧ c.cmd ≠ DlnCmd.channelDisable := by
    intro d2 w2 h2
    rw [read_val_w] at h2
    rcases List.mem_append.mp h2 with ha | hb
    · exact Or.inl ha
    · right
      simp at hb
      simp [hb, gvCall]
  by_cases h0 : d.chans_enabled = 0
  · by_cases hf : (dln2_adc_set_port_enabled tr d true w).ret < 0
    · rw [read_uninit_err tr d ch w h0 hf] at hc
      exact set_port_enabled_w_mem tr d w c hc
    · rw [read_uninit_ok tr d ch w h0 hf] at hc
      rcases hval _ _ hc with ha | hb
      · exact set_port_enabled_w_mem tr d w c ha
      · exact Or.inr hb
  · rw [read_enabled tr d ch w h0] at hc
    exact hval d w hc

theorem read_val_ctx (tr : Transport) (d : dln2_adc) (ch : Nat)
    (w : List XferCall) : (dln2_adc_read_val tr d ch w).ctx = d := by
  simp only [dln2_adc_read_val]
  split
  next => rfl
  next => split <;> rfl

theorem read_ctx_enabled (tr : Transport) (d : dln2_adc) (ch : Nat)
    (w : List XferCall) (h : d.chans_enabled ≠ 0) :
    (dln2_adc_read tr d ch w).ctx = d := by
  rw [read_enabled tr d ch w h, read_val_ctx]

theorem set_port_enabled_gcc_short (tr : Transport) (d : dln2_adc)
    (w : List XferCall) (h : tr w.length = XferResult.ok []) :
    dln2_adc_set_port_enabled tr d true w = ⟨-EPROTO, w ++ [gccCall d]⟩ := by
  have hp : -EPROTO < 0 := by norm_num [EPROTO]
  simp only [dln2_adc_set_port_enabled, get_chan_count_short tr d w h]
  split
  next => rfl
  next hc => exact absurd hp hc

theorem set_port_enabled_res_err (tr : Transport) (d : dln2_adc)
    (w : List XferCall) (n : Nat) (t : List Nat) (k : Nat)
    (hn : n < 256)
    (hgcc : tr w.length = XferResult.ok (n :: t))
    (herr : tr (w.length + 1) = XferResult.err k) :
    dln2_adc_set_port_enabled tr d true w =
      ⟨-((k : Int) + 1), w ++ [gccCall d, resCall d]⟩ := by
  have hgc : dln2_adc_get_chan_count tr d w = ⟨(n : Int), w ++ [gccCall d]⟩ := by
    rw [get_chan_count_ok tr d w (n :: t) hgcc (by simp)]
    simp [Nat.mod_eq_of_lt hn, gccCall]
  have hr2 : dln2_adc_set_port_resolution tr d (w ++ [gccCall d]) =
      ⟨-((k : Int) + 1), w ++ [gccCall d, resCall d]⟩ := by
    have h2 : tr ((w ++ [gccCall d]).length) = XferResult.err k := by
      have e : (w ++ [gccCall d]).length = w.length + 1 := by simp
      rw [e]
      exact herr
    rw [set_port_resolution_err tr d _ k h2]
    simp [resCall]
  simp only [dln2_adc_set_port_enabled, hgc, Int.toNat_natCast, hr2]
  rw [if_neg (show ¬((n : Int) < 0) by omega)]
  rw [if_pos (show -((k : Int) + 1) < 0 by omega)]

theorem set_port_enabled_pe_err (tr : Transport) (d : dln2_adc)
    (w : List XferCall) (n : Nat) (t lres : List Nat) (lce : Nat → List Nat)
    (k : Nat) (hn : n < 256)
    (hgcc : tr w.length = XferResult.ok (n :: t))
    (hres : tr (w.length + 1) = XferResult.ok lres)
    (hce : ∀ i, i < n → tr (w.length + 2 + i) = XferResult.ok (lce i))
    (herr : tr (w.length + 2 + n) = XferResult.err k) :
    dln2_adc_set_port_enabled tr d true w =
      ⟨-((k : Int) + 1), w ++ enableTrace d n⟩ := by
  have hgc : dln2_adc_get_chan_count tr d w = ⟨(n : Int), w ++ [gccCall d]⟩ := by
    rw [get_chan_count_ok tr d w (n :: t) hgcc (by simp)]
    simp [Nat.mod_eq_of_lt hn, gccCall]
  have hr2 : dln2_adc_set_port_resolution tr d (w ++ [gccCall d]) =
      ⟨0, w ++ [gccCall d, resCall d]⟩ := by
    have h2 : tr ((w ++ [gccCall d]).length) = XferResult.ok lres := by
      have e : (w ++ [gccCall d]).length = w.length + 1 := by simp
      rw [e]
      exact hres
    rw [set_port_resolution_ok tr d _ lres h2]
    simp [resCall]
  have hr3 : dln2_adc_enable_chans tr d (List.range n)
      (w ++ [gccCall d, resCall d]) =
      ⟨0, (w ++ [gccCall d, resCall d]) ++ (List.range n).map (ceCall d)⟩ := by
    apply enable_chans_all_ok tr d (List.range n) lce
    intro i hi
    have e : (w ++ [gccCall d, resCall d]).length + i = w.length + 2 + i := by
      simp only [List.length_append, List.length_cons, List.length_nil]
    rw [e]
    exact hce i (by simpa using hi)
  have hr4 : dln2_transfer tr DlnCmd.portEnable [d.port % 256] 2
      ((w ++ [gccCall d, resCall d]) ++ (List.range n).map (ceCall d)) =
      ⟨-((k : Int) + 1), 0, [],
        ((w ++ [gccCall d, resCall d]) ++ (List.range n).map (ceCall d)) ++ [peCall d]⟩ := by
    have h4 : tr (((w ++ [gccCall d, resCall d]) ++ (List.range n).map (ceCall d)).length) =
        XferResult.err k := by
      have e : ((w ++ [gccCall d, resCall d]) ++ (List.range n).map (ceCall d)).length =
          w.length + 2 + n := by
        simp only [List.length_append, List.length_cons, List.length_nil, List.length_map,
          List.length_range]
      rw [e]
      exact herr
    rw [dln2_transfer_err tr _ _ 2 _ k h4]
    simp [peCall]
  simp only [dln2_adc_set_port_enabled, hgc, Int.toNat_natCast, hr2, hr3, if_true, hr4]
  rw [if_neg (show ¬((n : Int) < 0) by omega)]
  rw [if_neg (show ¬((0 : Int) < 0) by omega)]
  rw [if_neg (show ¬((0 : Int) < 0) by omega)]
  rw [if_pos (show -((k : Int) + 1) < 0 by omega)]
  simp [enableTrace]

/-! ### Claim theorems -/

/-- Claim C10: for every call to `dln2_adc_read_raw` with a mask other than
`IIO_CHAN_INFO_RAW`, the function returns `-EINVAL` without issuing any
transfer (the trace is unchanged, so no transport call and no enable
sequence), and without modifying the context or the out-parameters
`*val`/`*val2`. -/
theorem C10_read_raw_other_mask (tr : Transport) (d : dln2_adc) (ch : Nat)
    (v v2 mask : Int) (w : List XferCall) (h : mask ≠ IIO_CHAN_INFO_RAW) :
    dln2_adc_read_raw tr d ch v v2 mask w = ⟨-EINVAL, d, v, v2, w⟩ := by
  simp [dln2_adc_read_raw, h]

/-- Claim C10 witness at mask 1 on a concrete transport. -/
theorem C10_witness :
    dln2_adc_read_raw trGood dUn 3 7 9 1 [] = ⟨-EINVAL, dUn, 7, 9, []⟩ :=
  C10_read_raw_other_mask trGood dUn 3 7 9 1 [] (by decide)

/-- Claim C2 counterexample: on an enabled context, reading channel 8 — which
the claim says is rejected as a caller error before any transport call —
actually issues a ChannelGetValue transfer (the trace grows by that call) and
returns the decoded value 1023, not an error. -/
theorem C2_counterexample :
    (dln2_adc_read (trOk [255, 3]) dEn 8 []).w =
      [⟨DlnCmd.channelGetVal, [2, 8]⟩] ∧
    (dln2_adc_read (trOk [255, 3]) dEn 8 []).ret = 1023 := by
  constructor <;> rfl

/-- Claim C2 (amended): `dln2_adc_read` performs no channel-range validation:
on an enabled context a read of ANY channel index — including 8 and the
unsigned representation of -1 — issues exactly one ChannelGetValue transfer,
with the channel truncated to a byte; rejection of out-of-range indices is
left to the host framework, which exposes only channel slots 0..7. -/
theorem C2_amended (tr : Transport) (d : dln2_adc) (ch : Nat)
    (w : List XferCall) (hE : d.chans_enabled ≠ 0) :
    (dln2_adc_read tr d ch w).w = w ++ [gvCall d ch] := by
  rw [read_enabled tr d ch w hE, read_val_w]

/-- Claim C2 (amended) witness: channels 8 and 2^32 - 1 (unsigned -1) both
reach the transport. -/
theorem C2_witness :
    (dln2_adc_read trGood dEn 8 []).w = [gvCall dEn 8] ∧
    (dln2_adc_read trGood dEn 4294967295 []).w = [gvCall dEn 4294967295] :=
  ⟨C2_amended trGood dEn 8 [] (by decide),
   C2_amended trGood dEn 4294967295 [] (by decide)⟩

/-- Claim C5: a successful read leaves the context enabled; and a read on an
already-enabled context issues exactly one transfer — the ChannelGetValue —
so GetChannelCount, SetResolution, ChannelEnable and PortEnable are never
re-issued once `chans_enabled` is set, and the context is unchanged. -/
theorem C5_enabled_stays (tr : Transport) (d : dln2_adc) (ch : Nat)
    (w : List XferCall) :
    (0 ≤ (dln2_adc_read tr d ch w).ret →
      (dln2_adc_read tr d ch w).ctx.chans_enabled ≠ 0) ∧
    (d.chans_enabled ≠ 0 →
      (dln2_adc_read tr d ch w).w = w ++ [gvCall d ch] ∧
      (dln2_adc_read tr d ch w).ctx = d) := by
  constructor
  · intro hret
    by_cases h0 : d.chans_enabled = 0
    · by_cases hf : (dln2_adc_set_port_enabled tr d true w).ret < 0
      · rw [read_uninit_err tr d ch w h0 hf] at hret
        simp at hret
        omega
      · rw [read_uninit_ok tr d ch w h0 hf, read_val_ctx]
        simp
    · rw [read_ctx_enabled tr d ch w h0]
      exact h0
  · intro hE
    exact ⟨by rw [read_enabled tr d ch w hE, read_val_w],
      read_ctx_enabled tr d ch w hE⟩

/-- Claim C5 witness: a successful first read enables the context, and a
second read on the enabled context issues only ChannelGetValue. -/
theorem C5_witness :
    (dln2_adc_read trGood dUn 5 []).ctx.chans_enabled ≠ 0 ∧
    (dln2_adc_read trGood dEn 5 []).w = [gvCall dEn 5] ∧
    (dln2_adc_read trGood dEn 5 []).ctx = dEn :=
  ⟨(C5_enabled_stays trGood dUn 5 []).1 (by decide),
   ((C5_enabled_stays trGood dEn 5 []).2 (by decide)).1,
   ((C5_enabled_stays trGood dEn 5 []).2 (by decide)).2⟩

/-- Claim C7: for any port and channel, a ChannelGetValue response payload of
bytes [0xFF, 0x03] decodes as a little-endian 16-bit value to the raw value
1023, and the issued request carries the (port, channel) bytes. -/
theorem C7_le_decode (tr : Transport) (d : dln2_adc) (ch : Nat)
    (w : List XferCall) (hE : d.chans_enabled ≠ 0)
    (h : tr w.length = XferResult.ok [255, 3]) :
    (dln2_adc_read tr d ch w).ret = 1023 ∧
    (dln2_adc_read tr d ch w).w = w ++ [gvCall d ch] := by
  rw [read_enabled tr d ch w hE, read_val_ok tr d ch w [255, 3] h (by simp)]
  constructor
  · norm_num [le16_to_cpu]
  · rfl

/-- Claim C7 witness: port 2, channel 5 encodes to request bytes [2, 5] and
the payload [0xFF, 0x03] decodes to 1023. -/
theorem C7_witness :
    (dln2_adc_read (trOk [255, 3]) dEn 5 []).ret = 1023 ∧
    (dln2_adc_read (trOk [255, 3]) dEn 5 []).w =
      [⟨DlnCmd.channelGetVal, [2, 5]⟩] :=
  ⟨(C7_le_decode (trOk [255, 3]) dEn 5 [] (by decide) rfl).1,
   (C7_le_decode (trOk [255, 3]) dEn 5 [] (by decide) rfl).2⟩

/-- Claim C1 counterexample: with a transport that fails with error value -5,
the underlying `dln2_adc_read` returns -5, but `dln2_adc_read_raw` with the
raw-value mask returns `-EINVAL` = -22: the error value is replaced, not
returned verbatim to the host framework. -/
theorem C1_counterexample :
    (dln2_adc_read trErr5 dEn 3 []).ret = -5 ∧
    (dln2_adc_read_raw trErr5 dEn 3 7 9 IIO_CHAN_INFO_RAW []).ret = -EINVAL ∧
    (dln2_adc_read_raw trErr5 dEn 3 7 9 IIO_CHAN_INFO_RAW []).ret ≠ -5 := by
  refine ⟨rfl, rfl, ?_⟩
  decide

/-- Claim C1 (amended): `dln2_adc_read` does return transport errors verbatim
to its caller, but `dln2_adc_read_raw` with the raw-value mask replaces every
failure of the underlying read by `-EINVAL` (leaving `*val`/`*val2`
untouched), so the host framework never sees the original error value. -/
theorem C1_amended (tr : Transport) (d : dln2_adc) (ch k : Nat)
    (v v2 : Int) (w : List XferCall) :
    (d.chans_enabled ≠ 0 → tr w.length = XferResult.err k →
      (dln2_adc_read tr d ch w).ret = -((k : Int) + 1)) ∧
    ((dln2_adc_read tr d ch w).ret < 0 →
      dln2_adc_read_raw tr d ch v v2 IIO_CHAN_INFO_RAW w =
        ⟨-EINVAL, (dln2_adc_read tr d ch w).ctx, v, v2,
          (dln2_adc_read tr d ch w).w⟩) := by
  constructor
  · intro hE hk
    rw [read_enabled tr d ch w hE, read_val_err tr d ch w k hk]
  · intro hneg
    simp [dln2_adc_read_raw, IIO_CHAN_INFO_RAW, hneg]

/-- Claim C1 (amended) witness: transport error -5 propagates verbatim out of
`dln2_adc_read`, and `dln2_adc_read_raw` then returns -EINVAL. -/
theorem C1_witness :
    (dln2_adc_read trErr5 dEn 3 []).ret = -((4 : Int) + 1) ∧
    dln2_adc_read_raw trErr5 dEn 3 7 9 IIO_CHAN_INFO_RAW [] =
      ⟨-EINVAL, (dln2_adc_read trErr5 dEn 3 []).ctx, 7, 9,
        (dln2_adc_read trErr5 dEn 3 []).w⟩ :=
  ⟨(C1_amended trErr5 dEn 3 4 7 9 []).1 (by decide) rfl,
   (C1_amended trErr5 dEn 3 4 7 9 []).2 (by decide)⟩

/-- Claim C3: the enable sequence run by the first read on a not-yet-enabled
context issues exactly GetChannelCount, then SetResolution (10 bits), then
ChannelEnable for channels 0..n-1 in increasing order, then PortEnable, after
which the triggering read issues ChannelGetValue; and for any transport the
`chans_enabled` flag ends up set exactly when the enable sequence — whose
final step is PortEnable — returned success. -/
theorem C3_enable_sequence (tr : Transport) (d : dln2_adc) (w : List XferCall)
    (n ch : Nat) (t lres lpe : List Nat) (lce : Nat → List Nat)
    (h0 : d.chans_enabled = 0) (hn : n < 256)
    (hgcc : tr w.length = XferResult.ok (n :: t))
    (hres : tr (w.length + 1) = XferResult.ok lres)
    (hce : ∀ i, i < n → tr (w.length + 2 + i) = XferResult.ok (lce i))
    (hpe : tr (w.length + 2 + n) = XferResult.ok lpe)
    (hlpe : 2 ≤ lpe.length) :
    dln2_adc_set_port_enabled tr d true w = ⟨0, w ++ enableTrace d n⟩ ∧
    (dln2_adc_read tr d ch w).w = (w ++ enableTrace d n) ++ [gvCall d ch] ∧
    (∀ (tr2 : Transport) (w2 : List XferCall),
      ((dln2_adc_read tr2 d ch w2).ctx.chans_enabled ≠ 0 ↔
        (dln2_adc_set_port_enabled tr2 d true w2).ret = 0)) := by
  have hok := set_port_enabled_ok tr d w n t lres lpe lce hn hgcc hres hce hpe hlpe
  refine ⟨hok, ?_, ?_⟩
  · have hnf : ¬(dln2_adc_set_port_enabled tr d true w).ret < 0 := by
      rw [hok]
      norm_num
    rw [read_uninit_ok tr d ch w h0 hnf, read_val_w, hok]
    simp [gvCall]
  · intro tr2 w2
    by_cases hf : (dln2_adc_set_port_enabled tr2 d true w2).ret < 0
    · rw [read_uninit_err tr2 d ch w2 h0 hf]
      constructor
      · intro hx
        exact absurd h0 hx
      · intro hx
        omega
    · rw [read_uninit_ok tr2 d ch w2 h0 hf, read_val_ctx]
      have hnp := set_port_enabled_ret_nonpos tr2 d true w2
      constructor
      · intro _
        omega
      · intro _
        simp

/-- Claim C3 witness: a two-channel port under an all-success transport. -/
theorem C3_witness :
    dln2_adc_set_port_enabled trGood dUn true [] = ⟨0, enableTrace dUn 2⟩ ∧
    (dln2_adc_read trGood dUn 5 []).w = enableTrace dUn 2 ++ [gvCall dUn 5] ∧
    (dln2_adc_read trGood dUn 5 []).ctx.chans_enabled ≠ 0 :=
  ⟨(C3_enable_sequence trGood dUn [] 2 5 [] [0, 0] [0, 0] (fun _ => [0, 0])
      rfl (by decide) rfl rfl (by decide) rfl (by decide)).1,
   (C3_enable_sequence trGood dUn [] 2 5 [] [0, 0] [0, 0] (fun _ => [0, 0])
      rfl (by decide) rfl rfl (by decide) rfl (by decide)).2.1,
   ((C3_enable_sequence trGood dUn [] 2 5 [] [0, 0] [0, 0] (fun _ => [0, 0])
      rfl (by decide) rfl rfl (by decide) rfl (by decide)).2.2 trGood []).mpr
     (by decide)⟩

/-- Claim C4: if ANY step of the enable sequence fails, the sequence stops
without issuing any later step's command, the context stays with
`chans_enabled` 0, and the triggering read returns that step's error without
issuing ChannelGetValue: a GetChannelCount transport failure or zero-byte
response leaves exactly the count query in the trace; a SetResolution
transport failure leaves the count query and the resolution call; a
ChannelEnable failure at channel j adds only the j+1 enable attempts, with no
PortEnable; a PortEnable transport failure or short conflict-mask response
leaves the full sequence trace and still no ChannelGetValue. -/
theorem C4_enable_failure_stops (tr : Transport) (d : dln2_adc)
    (w : List XferCall) (ch n j k : Nat) (t lres lpe : List Nat)
    (lce : Nat → List Nat) (h0 : d.chans_enabled = 0) :
    (tr w.length = XferResult.err k →
      dln2_adc_read tr d ch w = ⟨-((k : Int) + 1), d, w ++ [gccCall d]⟩) ∧
    (tr w.length = XferResult.ok [] →
      dln2_adc_read tr d ch w = ⟨-EPROTO, d, w ++ [gccCall d]⟩) ∧
    (n < 256 → tr w.length = XferResult.ok (n :: t) →
      tr (w.length + 1) = XferResult.err k →
      dln2_adc_read tr d ch w =
        ⟨-((k : Int) + 1), d, w ++ [gccCall d, resCall d]⟩) ∧
    (n < 256 → tr w.length = XferResult.ok (n :: t) →
      tr (w.length + 1) = XferResult.ok lres →
      j < n → (∀ i, i < j → tr (w.length + 2 + i) = XferResult.ok (lce i)) →
      tr (w.length + 2 + j) = XferResult.err k →
      dln2_adc_read tr d ch w =
        ⟨-((k : Int) + 1), d,
          w ++ gccCall d :: resCall d :: (List.range (j + 1)).map (ceCall d)⟩) ∧
    (n < 256 → tr w.length = XferResult.ok (n :: t) →
      tr (w.length + 1) = XferResult.ok lres →
      (∀ i, i < n → tr (w.length + 2 + i) = XferResult.ok (lce i)) →
      tr (w.length + 2 + n) = XferResult.err k →
      dln2_adc_read tr d ch w = ⟨-((k : Int) + 1), d, w ++ enableTrace d n⟩) ∧
    (n < 256 → tr w.length = XferResult.ok (n :: t) →
      tr (w.length + 1) = XferResult.ok lres →
      (∀ i, i < n → tr (w.length + 2 + i) = XferResult.ok (lce i)) →
      tr (w.length + 2 + n) = XferResult.ok lpe → lpe.length < 2 →
      dln2_adc_read tr d ch w = ⟨-EPROTO, d, w ++ enableTrace d n⟩) := by
  have hproto : -EPROTO < 0 := by norm_num [EPROTO]
  refine ⟨?_, ?_, ?_, ?_, ?_, ?_⟩
  · intro herr
    have he := set_port_enabled_gcc_err tr d w k herr
    have hf : (dln2_adc_set_port_enabled tr d true w).ret < 0 := by
      rw [he]
      show -((k : Int) + 1) < 0
      omega
    rw [read_uninit_err tr d ch w h0 hf, he]
  · intro hshort
    have he := set_port_enabled_gcc_short tr d w hshort
    have hf : (dln2_adc_set_port_enabled tr d true w).ret < 0 := by
      rw [he]
      exact hproto
    rw [read_uninit_err tr d ch w h0 hf, he]
  · intro hn hgcc herr
    have he := set_port_enabled_res_err tr d w n t k hn hgcc herr
    have hf : (dln2_adc_set_port_enabled tr d true w).ret < 0 := by
      rw [he]
      show -((k : Int) + 1) < 0
      omega
    rw [read_uninit_err tr d ch w h0 hf, he]
  · intro hn hgcc hres hj hok herr
    have he := set_port_enabled_ce_fail tr d w n t lres lce j k hn hgcc hres hj hok herr
    have hf : (dln2_adc_set_port_enabled tr d true w).ret < 0 := by
      rw [he]
      show -((k : Int) + 1) < 0
      omega
    rw [read_uninit_err tr d ch w h0 hf, he]
  · intro hn hgcc hres hce herr
    have he := set_port_enabled_pe_err tr d w n t lres lce k hn hgcc hres hce herr
    have hf : (dln2_adc_set_port_enabled tr d true w).ret < 0 := by
      rw [he]
      show -((k : Int) + 1) < 0
      omega
    rw [read_uninit_err tr d ch w h0 hf, he]
  · intro hn hgcc hres hce hpe hlpe
    have he := set_port_enabled_pe_short tr d w n t lres lpe lce hn hgcc hres hce hpe hlpe
    have hf : (dln2_adc_set_port_enabled tr d true w).ret < 0 := by
      rw [he]
      exact hproto
    rw [read_uninit_err tr d ch w h0 hf, he]

/-- Claim C4 witness: six concrete failing transports, one per step — a
GetChannelCount transport error and a zero-byte count response, a
SetResolution failure, a failure on the second of two ChannelEnables, and a
PortEnable transport failure and short conflict-mask response. -/
theorem C4_witness :
    dln2_adc_read trErr5 dUn 5 [] = ⟨-5, dUn, [gccCall dUn]⟩ ∧
    dln2_adc_read (trOk []) dUn 5 [] = ⟨-EPROTO, dUn, [gccCall dUn]⟩ ∧
    dln2_adc_read trResFail dUn 5 [] =
      ⟨-10, dUn, [gccCall dUn, resCall dUn]⟩ ∧
    dln2_adc_read trCeFail dUn 5 [] =
      ⟨-8, dUn, [gccCall dUn, resCall dUn, ceCall dUn 0, ceCall dUn 1]⟩ ∧
    dln2_adc_read trPeFail dUn 5 [] = ⟨-4, dUn, enableTrace dUn 2⟩ ∧
    dln2_adc_read trPeShort dUn 5 [] = ⟨-EPROTO, dUn, enableTrace dUn 2⟩ :=
  ⟨(C4_enable_failure_stops trErr5 dUn [] 5 0 0 4 [] [] [] (fun _ => [])
      rfl).1 rfl,
   (C4_enable_failure_stops (trOk []) dUn [] 5 0 0 0 [] [] [] (fun _ => [])
      rfl).2.1 rfl,
   (C4_enable_failure_stops trResFail dUn [] 5 2 0 9 [] [] [] (fun _ => [])
      rfl).2.2.1 (by decide) rfl rfl,
   (C4_enable_failure_stops trCeFail dUn [] 5 2 1 7 [] [0, 0] []
      (fun _ => [0, 0]) rfl).2.2.2.1 (by decide) rfl rfl (by decide)
      (by decide) rfl,
   (C4_enable_failure_stops trPeFail dUn [] 5 2 0 3 [] [0, 0] []
      (fun _ => [0, 0]) rfl).2.2.2.2.1 (by decide) rfl rfl (by decide) rfl,
   (C4_enable_failure_stops trPeShort dUn [] 5 2 0 0 [] [0, 0] [0]
      (fun _ => [0, 0]) rfl).2.2.2.2.2 (by decide) rfl rfl (by decide) rfl
      (by decide)⟩

/-- Claim C6: whenever the transport answers (no transport failure) but with
fewer bytes than the operation's declared minimum, the operation fails with
`-EPROTO` — a code produced by the driver itself, distinct from the
transport-failure path — and the software state is unchanged: a zero-byte
GetChannelCount response yields `-EPROTO` (not an implicit count of zero), a
short ChannelGetValue response makes the read fail with `-EPROTO` leaving the
context untouched, and a short PortEnable conflict-mask response makes the
enable sequence and the triggering read fail with `-EPROTO`, `chans_enabled`
still 0. -/
theorem C6_short_response (tr : Transport) (d : dln2_adc) (w : List XferCall)
    (ch n : Nat) (t lres lpe : List Nat) (lce : Nat → List Nat) :
    (tr w.length = XferResult.ok [] →
      dln2_adc_get_chan_count tr d w = ⟨-EPROTO, w ++ [gccCall d]⟩) ∧
    (d.chans_enabled ≠ 0 → ∀ l : List Nat,
      tr w.length = XferResult.ok l → l.length < 2 →
      dln2_adc_read tr d ch w = ⟨-EPROTO, d, w ++ [gvCall d ch]⟩) ∧
    (d.chans_enabled = 0 → n < 256 → tr w.length = XferResult.ok (n :: t) →
      tr (w.length + 1) = XferResult.ok lres →
      (∀ i, i < n → tr (w.length + 2 + i) = XferResult.ok (lce i)) →
      tr (w.length + 2 + n) = XferResult.ok lpe → lpe.length < 2 →
      dln2_adc_read tr d ch w = ⟨-EPROTO, d, w ++ enableTrace d n⟩) := by
  refine ⟨?_, ?_, ?_⟩
  · intro h
    have := get_chan_count_short tr d w h
    simpa [gccCall] using this
  · intro hE l h hl
    rw [read_enabled tr d ch w hE, read_val_short tr d ch w l h hl]
    rfl
  · intro h0 hn hgcc hres hce hpe hlpe
    have he := set_port_enabled_pe_short tr d w n t lres lpe lce hn hgcc hres hce hpe hlpe
    have hf : (dln2_adc_set_port_enabled tr d true w).ret < 0 := by
      rw [he]
      show -EPROTO < 0
      norm_num [EPROTO]
    rw [read_uninit_err tr d ch w h0 hf, he]

/-- Claim C6 witness: a zero-byte count response, a one-byte value response,
and a one-byte conflict-mask response each produce `-EPROTO` = -71. -/
theorem C6_witness :
    dln2_adc_get_chan_count (trOk []) dUn [] = ⟨-EPROTO, [gccCall dUn]⟩ ∧
    dln2_adc_read (trOk [7]) dEn 3 [] = ⟨-EPROTO, dEn, [gvCall dEn 3]⟩ ∧
    dln2_adc_read trPeShort dUn 3 [] = ⟨-EPROTO, dUn, enableTrace dUn 2⟩ :=
  ⟨(C6_short_response (trOk []) dUn [] 3 0 [] [] [] (fun _ => [])).1 rfl,
   (C6_short_response (trOk [7]) dEn [] 3 0 [] [] [] (fun _ => [])).2.1
      (by decide) [7] rfl (by decide),
   (C6_short_response trPeShort dUn [] 3 2 [] [0, 0] [0] (fun _ => [0, 0])).2.2
      rfl (by decide) rfl rfl (by decide) rfl (by decide)⟩

/-- Claim C8 counterexample: a read whose ChannelGetValue response carries
bytes [0xFF, 0xFF] succeeds and returns 65535, outside the claimed 0..1023
range: the driver applies no 10-bit mask to the 16-bit field. -/
theorem C8_counterexample :
    0 ≤ (dln2_adc_read (trOk [255, 255]) dEn 3 []).ret ∧
    (dln2_adc_read (trOk [255, 255]) dEn 3 []).ret = 65535 ∧
    ¬(dln2_adc_read (trOk [255, 255]) dEn 3 []).ret ≤ 1023 := by
  refine ⟨by decide, rfl, by decide⟩

/-- Claim C8 (amended): a successful read returns the full unmasked 16-bit
little-endian field value, so it always lies in 0..65535; it lies within the
10-bit range 0..1023 exactly when the response's high byte keeps the upper
six bits clear (second byte ≤ 3), which is what the configured 10-bit
resolution guarantees from a conforming device. -/
theorem C8_amended (tr : Transport) (d : dln2_adc) (ch : Nat)
    (w : List XferCall) (l : List Nat) :
    (dln2_adc_read tr d ch w).ret ≤ 65535 ∧
    (d.chans_enabled ≠ 0 → tr w.length = XferResult.ok l → 2 ≤ l.length →
      l.getD 1 0 % 256 ≤ 3 →
      0 ≤ (dln2_adc_read tr d ch w).ret ∧
        (dln2_adc_read tr d ch w).ret ≤ 1023) := by
  refine ⟨read_ret_le tr d ch w, ?_⟩
  intro hE h h2 hb
  rw [read_enabled tr d ch w hE, read_val_ok tr d ch w l h h2]
  constructor
  · simp
  · show ((le16_to_cpu (l.getD 0 0) (l.getD 1 0) : Nat) : Int) ≤ 1023
    have : le16_to_cpu (l.getD 0 0) (l.getD 1 0) ≤ 1023 := by
      simp only [le16_to_cpu]
      omega
    omega

/-- Claim C8 (amended) witness: [0xFF, 0xFF] still respects the 16-bit bound,
and [0xFF, 0x03] — upper six bits clear — lands within 0..1023. -/
theorem C8_witness :
    (dln2_adc_read (trOk [255, 255]) dEn 3 []).ret ≤ 65535 ∧
    0 ≤ (dln2_adc_read (trOk [255, 3]) dEn 3 []).ret ∧
    (dln2_adc_read (trOk [255, 3]) dEn 3 []).ret ≤ 1023 :=
  ⟨(C8_amended (trOk [255, 255]) dEn 3 [] []).1,
   ((C8_amended (trOk [255, 3]) dEn 3 [] [255, 3]).2
      (by decide) rfl (by decide) (by decide)).1,
   ((C8_amended (trOk [255, 3]) dEn 3 [] [255, 3]).2
      (by decide) rfl (by decide) (by decide)).2⟩

/-- Claim C9: in every execution of the controller, the PortDisable and
ChannelDisable commands are never issued — every transfer `dln2_adc_read_raw`
appends to the trace, under any mask and any transport, is some other
command — the `chans_enabled` flag, once nonzero, is never reset, and
`dln2_adc_remove` performs no hardware side effect: it issues no transfer. -/
theorem C9_never_disable (tr : Transport) (d : dln2_adc) (ch : Nat)
    (v v2 mask : Int) (w : List XferCall) :
    (∀ c, c ∈ (dln2_adc_read_raw tr d ch v v2 mask w).w →
      c ∈ w ∨ c.cmd ≠ DlnCmd.portDisable ∧ c.cmd ≠ DlnCmd.channelDisable) ∧
    (d.chans_enabled ≠ 0 →
      (dln2_adc_read_raw tr d ch v v2 mask w).ctx.chans_enabled ≠ 0) ∧
    dln2_adc_remove d w = ⟨0, w⟩ := by
  refine ⟨?_, ?_, rfl⟩
  · intro c hc
    by_cases hm : mask = IIO_CHAN_INFO_RAW
    · simp only [dln2_adc_read_raw, if_pos hm] at hc
      by_cases hr : (dln2_adc_read tr d ch w).ret < 0
      · rw [if_pos hr] at hc
        exact read_w_mem tr d ch w c hc
      · rw [if_neg hr] at hc
        exact read_w_mem tr d ch w c hc
    · simp only [dln2_adc_read_raw, if_neg hm] at hc
      exact Or.inl hc
  · intro hE
    by_cases hm : mask = IIO_CHAN_INFO_RAW
    · simp only [dln2_adc_read_raw, if_pos hm]
      by_cases hr : (dln2_adc_read tr d ch w).ret < 0
      · rw [if_pos hr]
        show (dln2_adc_read tr d ch w).ctx.chans_enabled ≠ 0
        rw [read_ctx_enabled tr d ch w hE]
        exact hE
      · rw [if_neg hr]
        show (dln2_adc_read tr d ch w).ctx.chans_enabled ≠ 0
        rw [read_ctx_enabled tr d ch w hE]
        exact hE
    · simp only [dln2_adc_read_raw, if_neg hm]
      exact hE

/-- Claim C9 witness: a full first read issues no disable command, an enabled
context stays enabled through read_raw, and remove leaves the trace alone. -/
theorem C9_witness :
    (∀ c, c ∈ (dln2_adc_read_raw trGood dUn 5 7 9 IIO_CHAN_INFO_RAW []).w →
      c ∈ ([] : List XferCall) ∨
        c.cmd ≠ DlnCmd.portDisable ∧ c.cmd ≠ DlnCmd.channelDisable) ∧
    (dln2_adc_read_raw trGood dEn 5 7 9 IIO_CHAN_INFO_RAW []).ctx.chans_enabled ≠ 0 ∧
    dln2_adc_remove dUn [] = ⟨0, []⟩ :=
  ⟨(C9_never_disable trGood dUn 5 7 9 IIO_CHAN_INFO_RAW []).1,
   (C9_never_disable trGood dEn 5 7 9 IIO_CHAN_INFO_RAW []).2.1 (by decide),
   (C9_never_disable trGood dUn 5 7 9 IIO_CHAN_INFO_RAW []).2.2⟩
